import Mathlib

/-!
Verification development for the option market-making strategy
(`market_makingv0.0.1.py`).  The Python source is shallowly embedded:
prices are rationals, positions are integers, the exchange state that a
function reads (order book levels, outstanding orders, positions, the
random coin flip) is passed explicitly, and the orders a function would
submit are returned as data.  The external pricing library
(`black_scholes`) and `calculate_current_time_to_date` are parameters of
the embedding, as they are not part of this repository.
-/

namespace MarketMaking

/-- Order side, the two values `'bid'` / `'ask'` used by the source.
The source raises on any other string; all internal call sites pass one
of the two literals, so the embedded side is a closed variant. -/
inductive Side where
  | bid : Side
  | ask : Side
deriving DecidableEq, Repr

/-- An outstanding or inserted order: side, price, volume
(order ids are dropped; the volume logic never reads them). -/
structure Order where
  side : Side
  price : ℚ
  volume : ℤ
deriving DecidableEq, Repr

/-- A price-book level (price and volume). -/
structure Level where
  price : ℚ
  volume : ℤ
deriving DecidableEq, Repr

/-- Python's builtin `round` (and `round(x, 0)` followed by `int`):
round half to even (banker's rounding). -/
def pyRound (q : ℚ) : ℤ :=
  let f : ℤ := ⌊q⌋
  let frac : ℚ := q - f
  if frac < 1/2 then f
  else if 1/2 < frac then f + 1
  else if f % 2 = 0 then f else f + 1

/-- `limit_maker_man(strike, stock_value)`: dynamic per-option position
cap, `round(100 * ratio, 0)` where `ratio` is the smaller of the two
values divided by the larger. -/
def limit_maker_man (strike stock_value : ℚ) : ℤ :=
  let maxx : ℚ := 100
  if strike ≤ stock_value then pyRound (maxx * (strike / stock_value))
  else pyRound (maxx * (stock_value / strike))

/-- `trade_would_breach_position_limit(instrument_id, volume, side,
position_limit)`: the position of the instrument is read from the
exchange and passed here explicitly. -/
def trade_would_breach_position_limit (position_instrument volume : ℤ)
    (side : Side) (position_limit : ℤ) : Bool :=
  match side with
  | Side.bid => decide (position_instrument + volume > position_limit)
  | Side.ask => decide (position_instrument - volume < -position_limit)

/-- `round_down_to_tick(price, tick_size) = floor(price / tick_size) * tick_size`. -/
def round_down_to_tick (price tick_size : ℚ) : ℚ :=
  ⌊price / tick_size⌋ * tick_size

/-- `round_up_to_tick(price, tick_size) = ceil(price / tick_size) * tick_size`. -/
def round_up_to_tick (price tick_size : ℚ) : ℚ :=
  ⌈price / tick_size⌉ * tick_size

/-- `calculate_theoretical_option_value`: dispatch on the `callput`
string; the Black-Scholes `call_value` / `put_value` functions
(arguments S, K, T, r, sigma) and the time to expiry are parameters,
being external to the repository. -/
def calculate_theoretical_option_value
    (call_value put_value : ℚ → ℚ → ℚ → ℚ → ℚ → ℚ)
    (time_to_expiry strike : ℚ) (callput : String)
    (stock_value interest_rate volatility : ℚ) : Except String ℚ :=
  if callput = "call" then
    Except.ok (call_value stock_value strike time_to_expiry interest_rate volatility)
  else if callput = "put" then
    Except.ok (put_value stock_value strike time_to_expiry interest_rate volatility)
  else
    Except.error ("Got unexpected value for callput argument, should be call or put but was " ++ callput)

/-- `calculate_option_delta`: same dispatch with `call_delta` / `put_delta`. -/
def calculate_option_delta
    (call_delta put_delta : ℚ → ℚ → ℚ → ℚ → ℚ → ℚ)
    (time_to_expiry strike : ℚ) (callput : String)
    (stock_value interest_rate volatility : ℚ) : Except String ℚ :=
  if callput = "call" then
    Except.ok (call_delta stock_value strike time_to_expiry interest_rate volatility)
  else if callput = "put" then
    Except.ok (put_delta stock_value strike time_to_expiry interest_rate volatility)
  else
    Except.error ("Got unexpected value for callput argument, should be call or put but was " ++ callput)

/-- The cancel loop of `update_quotes`: iterate over the outstanding
orders (dict iteration order = insertion order), assigning
`old_ask_volume = order.volume` / `old_bid_volume = order.volume`
per order (plain assignment, not accumulation).  Returns
`(old_bid_volume, old_ask_volume)`, both starting at 0. -/
def collect_old_volumes (orders : List Order) : ℤ × ℤ :=
  orders.foldl
    (fun acc o =>
      match o.side with
      | Side.ask => (acc.1, o.volume)
      | Side.bid => (o.volume, acc.2))
    (0, 0)

/-- The price computation of `update_quotes` (lines 154-162): raw bid =
round down of theo - credit, raw ask = round up of theo + credit; if the
two coincide, a coin flip (`random.randint(0,1)`) either adds one tick
to the bid (`coin = false`, i.e. `coin_flip == 0`) or subtracts one tick
from the ask (`coin = true`). -/
def quote_prices (theoretical_price credit tick_size : ℚ) (coin : Bool) : ℚ × ℚ :=
  let bid0 := round_down_to_tick (theoretical_price - credit) tick_size
  let ask0 := round_up_to_tick (theoretical_price + credit) tick_size
  if bid0 = ask0 then
    if coin then (bid0, ask0 - 1/10) else (bid0 + 1/10, ask0)
  else (bid0, ask0)

/-- `update_quotes(callput, option_id, theoretical_price, credit,
volume, position_limit, tick_size)`.  The exchange state it reads is
explicit: `orders` (outstanding orders for the option), `position` (the
option's current position), the two hysteresis flags, and the coin of
the random tie-break.  The result is the list of limit orders inserted,
in submission order.  Note that the position-limit pre-check is made
with the base `volume` argument, not with the clamped
`bid_volume` / `ask_volume`. -/
def update_quotes (callput : String) (theoretical_price credit : ℚ)
    (volume position_limit : ℤ) (tick_size : ℚ) (orders : List Order)
    (position : ℤ) (force_delta_increase force_delta_decrease : Bool)
    (coin : Bool) : List Order :=
  let old := collect_old_volumes orders
  let old_bid_volume := old.1
  let old_ask_volume := old.2
  let prices := quote_prices theoretical_price credit tick_size coin
  let bid_price := prices.1
  let ask_price := prices.2
  let max_volume_to_buy := position_limit - position
  let max_volume_to_sell := position_limit + position
  let bid_volume := min (volume + old_bid_volume) max_volume_to_buy
  let ask_volume := min (volume + old_ask_volume) max_volume_to_sell
  if callput = "call" then
    (if bid_volume > 0 ∧
        trade_would_breach_position_limit position volume Side.bid position_limit = false ∧
        force_delta_decrease = false then
      [⟨Side.bid, bid_price, bid_volume⟩] else []) ++
    (if ask_volume > 0 ∧
        trade_would_breach_position_limit position volume Side.ask position_limit = false ∧
        force_delta_increase = false then
      [⟨Side.ask, ask_price, ask_volume⟩] else [])
  else if callput = "put" then
    (if bid_volume > 0 ∧
        trade_would_breach_position_limit position volume Side.bid position_limit = false ∧
        force_delta_increase = false then
      [⟨Side.bid, bid_price, bid_volume⟩] else []) ++
    (if ask_volume > 0 ∧
        trade_would_breach_position_limit position volume Side.ask position_limit = false ∧
        force_delta_decrease = false then
      [⟨Side.ask, ask_price, ask_volume⟩] else [])
  else []

/-- The intrinsic-bound credit of the main loop (lines 388-393). -/
def credit1 (theoretical_value strike : ℚ) : ℚ :=
  if theoretical_value > strike then theoretical_value - strike - 1/10
  else if theoretical_value < strike then strike - theoretical_value - 1/10
  else 0

/-- The market-bound credit of the main loop (lines 395-417): 0 when
either book side has fewer than two levels, else the smaller of the
distances from the theoretical value to the second bid and second ask. -/
def credit2 (theoretical_value : ℚ) (bids asks : List Level) : ℚ :=
  match bids, asks with
  | _ :: b2 :: _, _ :: a2 :: _ =>
    let diff_bid :=
      if theoretical_value > b2.price then theoretical_value - b2.price
      else b2.price - theoretical_value
    let diff_ask :=
      if theoretical_value < a2.price then a2.price - theoretical_value
      else theoretical_value - a2.price
    if diff_bid < diff_ask then diff_bid else diff_ask
  | _, _ => 0

/-- The credit selection of the main loop (lines 424-427):
`if credit1 > credit2: credit = credit2 elif credit1 < credit2:
credit = credit1` — with no else branch, so when the two bounds are
equal the `credit` variable keeps whatever value it held before
(`credit_prev`, the credit of the previously processed option; on the
very first option of the run it is unbound and Python raises NameError). -/
def credit_step (theoretical_value strike : ℚ) (bids asks : List Level)
    (credit_prev : ℚ) : ℚ :=
  let c1 := credit1 theoretical_value strike
  let c2 := credit2 theoretical_value bids asks
  if c1 > c2 then c2
  else if c1 < c2 then c1
  else credit_prev

/-- The pair of hysteresis flags (`force_delta_increase`,
`force_delta_decrease`). -/
structure HedgeFlags where
  force_delta_increase : Bool
  force_delta_decrease : Bool
deriving DecidableEq, Repr

/-- The hysteresis update at the end of each main-loop iteration
(lines 452-463): two `if/elif` chains run in sequence on the same
stock position. -/
def hysteresis_update (stock_position : ℤ) (f : HedgeFlags) : HedgeFlags :=
  let f1 :=
    if stock_position ≥ 80 then { f with force_delta_increase := true }
    else if stock_position ≤ 80 then { f with force_delta_decrease := false }
    else f
  if stock_position ≤ -80 then { f1 with force_delta_decrease := true }
  else if stock_position ≥ -80 then { f1 with force_delta_increase := false }
  else f1

/-- The sizing part of `hedge_delta_position` (lines 254-271): candidate
volume `round(total_delta) + stock_position`; the non-negative branch
sells (side ask) and clamps against the post-trade position falling
below -100, the negative branch buys (side bid) and clamps against it
exceeding 100.  Returns the clamped volume and the side. -/
def hedge_volume_side (total_delta : ℚ) (stock_position : ℤ) : ℤ × Side :=
  let volume0 : ℤ := pyRound total_delta + stock_position
  if volume0 ≥ 0 then
    let stock_position_after := stock_position - volume0
    (if stock_position_after < -100 then
        volume0 - (-100 - stock_position_after)
      else volume0, Side.ask)
  else
    let v0 := -volume0
    let stock_position_after := stock_position + v0
    (if stock_position_after > 100 then
        v0 - (stock_position_after - 100)
      else v0, Side.bid)

/-- The decision part of `hedge_delta_position` (lines 257-291): the
hedge price is the best bid for an ask hedge and the best ask for a bid
hedge; an IOC order is submitted only when `total_delta +
stock_position` lies strictly outside [-20, 20], the position-limit
check (global limit 100) passes, and the clamped volume is non-zero.
Returns the order submitted, if any. -/
def hedge_decision (total_delta : ℚ) (stock_position : ℤ)
    (best_bid best_ask : ℚ) : Option Order :=
  let vs := hedge_volume_side total_delta stock_position
  let hedge_price := match vs.2 with
    | Side.ask => best_bid
    | Side.bid => best_ask
  if total_delta + (stock_position : ℚ) > 20 ∨
      total_delta + (stock_position : ℚ) < -20 then
    if trade_would_breach_position_limit stock_position vs.1 vs.2 100 = false ∧
        vs.1 ≠ 0 then
      some ⟨vs.2, hedge_price, vs.1⟩
    else none
  else none

end MarketMaking

namespace MarketMaking

/-- Ceil expressed through floor, to let concrete values reduce. -/
theorem ceil_as_neg_floor (a : ℚ) : ⌈a⌉ = -⌊-a⌋ := by
  rw [Int.floor_neg, neg_neg]

/-- Throwing a cons through the getLast-with-default reading of a volume. -/
theorem getD_last_cons (l : List Order) (o : Order) (d : ℤ) :
    (((o :: l).getLast?).map Order.volume).getD d
      = ((l.getLast?).map Order.volume).getD o.volume := by
  cases l with
  | nil => simp
  | cons x xs =>
    rw [List.getLast?_cons_cons]
    cases hxs : (x :: xs).getLast? with
    | none => simp at hxs
    | some y => simp [hxs]

/-- The cancel-loop fold, for any starting accumulator, keeps exactly the
volume of the last-enumerated order of each side. -/
theorem collect_aux (orders : List Order) (b a : ℤ) :
    orders.foldl
      (fun acc o =>
        match o.side with
        | Side.ask => (acc.1, o.volume)
        | Side.bid => (o.volume, acc.2))
      (b, a)
      = ((((orders.filter fun o => decide (o.side = Side.bid)).getLast?).map Order.volume).getD b,
         (((orders.filter fun o => decide (o.side = Side.ask)).getLast?).map Order.volume).getD a) := by
  induction orders generalizing b a with
  | nil => simp
  | cons o rest ih =>
    rw [List.foldl_cons]
    cases hs : o.side with
    | ask =>
      simp only [hs]
      rw [ih b o.volume]
      congr 1
      · rw [List.filter_cons_of_neg (by simp [hs])]
      · rw [List.filter_cons_of_pos (by simp [hs]), getD_last_cons]
    | bid =>
      simp only [hs]
      rw [ih o.volume a]
      congr 1
      · rw [List.filter_cons_of_pos (by simp [hs]), getD_last_cons]
      · rw [List.filter_cons_of_neg (by simp [hs])]

/-- Claim C1, counterexample: at stock position 100 (≥ 80) the hysteresis
update does NOT leave force_delta_increase set — the elif of the second
branch chain clears it in the same update, even when it was set before. -/
theorem C1_counterexample :
    (hysteresis_update 100
        { force_delta_increase := true, force_delta_decrease := true }).force_delta_increase
      = false := by
  decide

/-- Claim C1, amended: when P ≥ 80 the first branch sets
force_delta_increase but the second chain immediately clears it (its
elif fires for every P > -80), so the flag is false at the end of the
update; in general the updated flag is the old value when P ≤ -80 and
false otherwise.  The suppression wiring itself is as claimed: while
force_delta_increase is set, a call quote omits its ask side and a put
quote omits its bid side. -/
theorem C1_hysteresis_amended (P : ℤ) (f : HedgeFlags)
    (theo credit tick : ℚ) (volume limit pos : ℤ) (orders : List Order)
    (fdd coin : Bool) :
    (P ≥ 80 → (hysteresis_update P f).force_delta_increase = false)
    ∧ ((hysteresis_update P f).force_delta_increase
        = if P ≤ -80 then f.force_delta_increase else false)
    ∧ (∀ o ∈ update_quotes ("call") theo credit volume limit tick orders pos true fdd coin,
        o.side = Side.bid)
    ∧ (∀ o ∈ update_quotes ("put") theo credit volume limit tick orders pos true fdd coin,
        o.side = Side.ask) := by
  refine ⟨?_, ?_, ?_, ?_⟩
  · intro hP
    unfold hysteresis_update
    split_ifs <;> simp_all <;> omega
  · unfold hysteresis_update
    split_ifs <;> simp_all <;> omega
  · intro o ho
    simp [update_quotes] at ho
    rw [ho.2]
  · intro o ho
    simp [update_quotes] at ho
    rw [ho.2]

/-- Claim C1, witness for the amended theorem at P = 100. -/
theorem C1_hysteresis_amended_witness :
    (100:ℤ) ≥ 80
    ∧ (hysteresis_update 100
        { force_delta_increase := false, force_delta_decrease := false }).force_delta_increase
      = false :=
  ⟨by norm_num,
   (C1_hysteresis_amended 100
      { force_delta_increase := false, force_delta_decrease := false }
      10 (15/100) (1/10) 10 100 0 [] false false).1 (by norm_num)⟩

/-- Claim C2, code bug: when the intrinsic bound and the market bound are
equal (here both 0, with V = K = 50 and a book with fewer than two
levels per side), the selection chain has no else branch, so the credit
keeps the value left over from the previously processed option (here 5)
instead of the common bound 0. -/
theorem C2_credit_tie_stale :
    credit1 50 50 = 0
    ∧ credit2 50 [] [] = 0
    ∧ credit_step 50 50 [] [] 5 = 5
    ∧ credit_step 50 50 [] [] 5 ≠ min (credit1 50 50) (credit2 50 [] []) := by
  refine ⟨?_, ?_, ?_, ?_⟩ <;> norm_num [credit1, credit2, credit_step]

/-- Claim C3, code bug: the documented example bid = 9.80 / ask = 10.20
does hold, but when the raw bid equals the raw ask the tie-break moves
the bid UP one tick or the ask DOWN one tick, so both coin outcomes
leave bid strictly greater than ask (a crossed quote), contradicting
the never-produces-bid-above-ask part of the claim. -/
theorem C3_tie_break_crossed :
    quote_prices 10 (15/100) (1/10) false = (98/10, 102/10)
    ∧ quote_prices 10 (15/100) (1/10) true = (98/10, 102/10)
    ∧ quote_prices 10 0 (1/10) false = (101/10, 10)
    ∧ quote_prices 10 0 (1/10) true = (10, 99/10)
    ∧ (quote_prices 10 0 (1/10) false).1 > (quote_prices 10 0 (1/10) false).2
    ∧ (quote_prices 10 0 (1/10) true).1 > (quote_prices 10 0 (1/10) true).2 := by
  refine ⟨?_, ?_, ?_, ?_, ?_, ?_⟩ <;>
    norm_num [quote_prices, round_down_to_tick, round_up_to_tick, ceil_as_neg_floor]

/-- Claim C4, counterexample: with position_limit = 100, position = 95,
base volume = 10 and no outstanding orders, update_quotes inserts no bid
at all — the claimed clamped bid of size 5 is absent. -/
theorem C4_counterexample :
    (update_quotes ("call") 10 (15/100) 10 100 (1/10) [] 95 false false false).any
      (fun o => decide (o.side = Side.bid)) = false := by
  have h : update_quotes ("call") 10 (15/100) 10 100 (1/10) [] 95 false false false
      = [{ side := Side.ask, price := 102/10, volume := 10 }] := by
    norm_num [update_quotes, quote_prices, round_down_to_tick, round_up_to_tick,
      ceil_as_neg_floor, collect_old_volumes, trade_would_breach_position_limit]
  rw [h]
  rfl

/-- Claim C4, amended: the desired bid size is indeed
min(10, 100 - 95) = 5 and is strictly positive, but the pre-insertion
position-limit check is made with the unclamped base volume 10, which
reports a breach (95 + 10 > 100), so the bid is suppressed entirely and
only the ask is inserted. -/
theorem C4_amended :
    min ((10:ℤ) + 0) (100 - 95) = 5
    ∧ trade_would_breach_position_limit 95 10 Side.bid 100 = true
    ∧ update_quotes ("call") 10 (15/100) 10 100 (1/10) [] 95 false false false
        = [{ side := Side.ask, price := 102/10, volume := 10 }] := by
  refine ⟨by norm_num, by norm_num [trade_would_breach_position_limit], ?_⟩
  norm_num [update_quotes, quote_prices, round_down_to_tick, round_up_to_tick,
    ceil_as_neg_floor, collect_old_volumes, trade_would_breach_position_limit]

/-- Claim C5: a hedge order is submitted only when the net exposure
total_delta + stock_position lies strictly outside [-20, 20]; exactly
20 or -20 never triggers a hedge, and a value outside the band does
trigger one provided the clamped size is non-zero and the
position-limit check passes. -/
theorem C5_hedge_deadband (total_delta : ℚ) (sp : ℤ) (bb ba : ℚ) :
    ((hedge_decision total_delta sp bb ba).isSome = true →
      total_delta + (sp:ℚ) > 20 ∨ total_delta + (sp:ℚ) < -20)
    ∧ (total_delta + (sp:ℚ) = 20 → hedge_decision total_delta sp bb ba = none)
    ∧ (total_delta + (sp:ℚ) = -20 → hedge_decision total_delta sp bb ba = none)
    ∧ ((total_delta + (sp:ℚ) > 20 ∨ total_delta + (sp:ℚ) < -20) →
        trade_would_breach_position_limit sp (hedge_volume_side total_delta sp).1
          (hedge_volume_side total_delta sp).2 100 = false →
        (hedge_volume_side total_delta sp).1 ≠ 0 →
        (hedge_decision total_delta sp bb ba).isSome = true) := by
  refine ⟨?_, ?_, ?_, ?_⟩
  · intro h
    by_cases hc : total_delta + (sp:ℚ) > 20 ∨ total_delta + (sp:ℚ) < -20
    · exact hc
    · simp [hedge_decision, hc] at h
  · intro h20
    simp [hedge_decision, h20]
  · intro h20
    simp [hedge_decision, h20]
  · intro hc hbr hnz
    simp [hedge_decision, hc, hbr, hnz]

/-- Claim C5, witness: net exposure 20.01 with flat stock position
submits a hedge; the deadband hypothesis holds at 20.01. -/
theorem C5_hedge_deadband_witness :
    ((2001:ℚ)/100 + ((0:ℤ):ℚ) > 20 ∨ (2001:ℚ)/100 + ((0:ℤ):ℚ) < -20)
    ∧ (hedge_decision (2001/100) 0 9 11).isSome = true :=
  ⟨Or.inl (by norm_num),
   (C5_hedge_deadband (2001/100) 0 9 11).2.2.2 (Or.inl (by norm_num))
     (by norm_num [hedge_volume_side, pyRound, trade_would_breach_position_limit])
     (by norm_num [hedge_volume_side, pyRound])⟩

/-- Claim C6: the candidate hedge size round(total_delta) +
stock_position fixes the side (ask when non-negative, bid otherwise);
the clamped volume is non-negative, no larger than the candidate
magnitude (the overflow is subtracted, the order is not dropped), and
for any starting stock position in [-100, 100] executing the clamped
order leaves the stock position within [-100, 100]. -/
theorem C6_hedge_clamp (total_delta : ℚ) (sp : ℤ)
    (h1 : -100 ≤ sp) (h2 : sp ≤ 100) :
    (0 ≤ pyRound total_delta + sp → (hedge_volume_side total_delta sp).2 = Side.ask)
    ∧ (pyRound total_delta + sp < 0 → (hedge_volume_side total_delta sp).2 = Side.bid)
    ∧ 0 ≤ (hedge_volume_side total_delta sp).1
    ∧ (hedge_volume_side total_delta sp).1 ≤ ((pyRound total_delta + sp).natAbs : ℤ)
    ∧ ((hedge_volume_side total_delta sp).2 = Side.ask →
        -100 ≤ sp - (hedge_volume_side total_delta sp).1
          ∧ sp - (hedge_volume_side total_delta sp).1 ≤ 100)
    ∧ ((hedge_volume_side total_delta sp).2 = Side.bid →
        -100 ≤ sp + (hedge_volume_side total_delta sp).1
          ∧ sp + (hedge_volume_side total_delta sp).1 ≤ 100) := by
  simp only [hedge_volume_side]
  generalize pyRound total_delta = c
  split_ifs with hv hclamp <;> simp_all [-Int.natCast_natAbs] <;> omega

/-- Claim C6, witness at stock position 95 and total delta -200: the
bid-side hedge is clamped so the position stays within the limit. -/
theorem C6_hedge_clamp_witness :
    (-100:ℤ) ≤ 95 ∧ (95:ℤ) ≤ 100 ∧ 0 ≤ (hedge_volume_side (-200) 95).1 :=
  ⟨by norm_num, by norm_num,
   (C6_hedge_clamp (-200) 95 (by norm_num) (by norm_num)).2.2.1⟩

/-- Claim C7: for every price p and tick t > 0, round_down_to_tick p t
is the largest integer multiple of t at most p (so it is within t below
p), round_up_to_tick p t is the smallest integer multiple of t at least
p, and both are idempotent on exact multiples of t. -/
theorem C7_tick_rounding (p t : ℚ) (ht : 0 < t) :
    round_down_to_tick p t ≤ p
    ∧ p < round_down_to_tick p t + t
    ∧ (∃ k : ℤ, round_down_to_tick p t = (k : ℚ) * t)
    ∧ (∀ k : ℤ, (k : ℚ) * t ≤ p → (k : ℚ) * t ≤ round_down_to_tick p t)
    ∧ p ≤ round_up_to_tick p t
    ∧ round_up_to_tick p t < p + t
    ∧ (∃ k : ℤ, round_up_to_tick p t = (k : ℚ) * t)
    ∧ (∀ k : ℤ, p ≤ (k : ℚ) * t → round_up_to_tick p t ≤ (k : ℚ) * t)
    ∧ (∀ k : ℤ, round_down_to_tick ((k : ℚ) * t) t = (k : ℚ) * t
        ∧ round_up_to_tick ((k : ℚ) * t) t = (k : ℚ) * t) := by
  have htne : t ≠ 0 := ne_of_gt ht
  refine ⟨?_, ?_, ⟨⌊p / t⌋, rfl⟩, ?_, ?_, ?_, ⟨⌈p / t⌉, rfl⟩, ?_, ?_⟩
  · calc (⌊p / t⌋ : ℚ) * t ≤ (p / t) * t :=
          mul_le_mul_of_nonneg_right (Int.floor_le _) (le_of_lt ht)
      _ = p := div_mul_cancel₀ p htne
  · have h := Int.lt_floor_add_one (p / t)
    calc p = (p / t) * t := (div_mul_cancel₀ p htne).symm
      _ < ((⌊p / t⌋ : ℚ) + 1) * t := mul_lt_mul_of_pos_right h ht
      _ = round_down_to_tick p t + t := by
          simp [round_down_to_tick]; ring
  · intro k hk
    have hk2 : (k : ℚ) ≤ p / t := (le_div_iff₀ ht).mpr hk
    have hk3 : k ≤ ⌊p / t⌋ := Int.le_floor.mpr hk2
    have hk4 : (k : ℚ) ≤ (⌊p / t⌋ : ℚ) := by exact_mod_cast hk3
    exact mul_le_mul_of_nonneg_right hk4 (le_of_lt ht)
  · calc p = (p / t) * t := (div_mul_cancel₀ p htne).symm
      _ ≤ (⌈p / t⌉ : ℚ) * t :=
          mul_le_mul_of_nonneg_right (Int.le_ceil _) (le_of_lt ht)
  · have h := Int.ceil_lt_add_one (p / t)
    calc round_up_to_tick p t = (⌈p / t⌉ : ℚ) * t := rfl
      _ < ((p / t) + 1) * t := mul_lt_mul_of_pos_right h ht
      _ = p + t := by field_simp
  · intro k hk
    have hk2 : p / t ≤ (k : ℚ) := (div_le_iff₀ ht).mpr hk
    have hk3 : ⌈p / t⌉ ≤ k := Int.ceil_le.mpr hk2
    have hk4 : (⌈p / t⌉ : ℚ) ≤ (k : ℚ) := by exact_mod_cast hk3
    exact mul_le_mul_of_nonneg_right hk4 (le_of_lt ht)
  · intro k
    have hdiv : ((k : ℚ) * t) / t = (k : ℚ) := by field_simp
    constructor
    · simp [round_down_to_tick, hdiv]
    · simp [round_up_to_tick, hdiv]

/-- Claim C7, witness at p = 0.97, t = 0.10. -/
theorem C7_tick_rounding_witness :
    (0:ℚ) < 1/10
    ∧ round_down_to_tick (97/100) (1/10) ≤ 97/100
    ∧ 97/100 < round_down_to_tick (97/100) (1/10) + 1/10 :=
  ⟨by norm_num,
   (C7_tick_rounding (97/100) (1/10) (by norm_num)).1,
   (C7_tick_rounding (97/100) (1/10) (by norm_num)).2.1⟩

/-- Claim C8: for positive strike and underlying the per-option cap is
round(100 * min / max), the function is symmetric in its two arguments,
and the documented values hold. -/
theorem C8_limit_cap (a b : ℚ) (ha : 0 < a) (hb : 0 < b) :
    limit_maker_man a b = pyRound (100 * (min a b / max a b))
    ∧ limit_maker_man a b = limit_maker_man b a
    ∧ limit_maker_man 50 50 = 100
    ∧ limit_maker_man 25 100 = 25
    ∧ limit_maker_man 100 25 = 25 := by
  refine ⟨?_, ?_, ?_, ?_, ?_⟩
  · rcases le_total a b with h | h
    · rw [limit_maker_man, if_pos h, min_eq_left h, max_eq_right h]
    · rcases eq_or_lt_of_le h with rfl | hlt
      · rw [limit_maker_man, if_pos le_rfl, min_self, max_self]
      · rw [limit_maker_man, if_neg (not_le.mpr hlt), min_eq_right h, max_eq_left h]
  · rcases lt_trichotomy a b with hlt | rfl | hlt
    · rw [limit_maker_man, if_pos (le_of_lt hlt), limit_maker_man,
        if_neg (not_le.mpr hlt)]
    · rfl
    · rw [limit_maker_man, if_neg (not_le.mpr hlt), limit_maker_man,
        if_pos (le_of_lt hlt)]
  · norm_num [limit_maker_man, pyRound]
  · norm_num [limit_maker_man, pyRound]
  · norm_num [limit_maker_man, pyRound]

/-- Claim C8, witness at strike 25, underlying 100. -/
theorem C8_limit_cap_witness :
    (0:ℚ) < 25 ∧ (0:ℚ) < 100
    ∧ limit_maker_man 25 100 = pyRound (100 * (min (25:ℚ) 100 / max (25:ℚ) 100))
    ∧ limit_maker_man 25 100 = limit_maker_man 100 25 :=
  ⟨by norm_num, by norm_num,
   (C8_limit_cap 25 100 (by norm_num) (by norm_num)).1,
   (C8_limit_cap 25 100 (by norm_num) (by norm_num)).2.1⟩

/-- Claim C9: the theoretical-value and delta calculators succeed
exactly when the kind is call or put; for those kinds they return the
corresponding model result, and for any other kind they return the
invalid-option-kind error (no value is produced, no default is used). -/
theorem C9_invalid_option_kind
    (cv pv cd pd : ℚ → ℚ → ℚ → ℚ → ℚ → ℚ) (t K S r sg : ℚ) (k : String) :
    ((∃ v, calculate_theoretical_option_value cv pv t K k S r sg = Except.ok v)
        ↔ (k = "call" ∨ k = "put"))
    ∧ ((∃ v, calculate_option_delta cd pd t K k S r sg = Except.ok v)
        ↔ (k = "call" ∨ k = "put"))
    ∧ (k = "call" →
        calculate_theoretical_option_value cv pv t K k S r sg = Except.ok (cv S K t r sg)
        ∧ calculate_option_delta cd pd t K k S r sg = Except.ok (cd S K t r sg))
    ∧ (k = "put" →
        calculate_theoretical_option_value cv pv t K k S r sg = Except.ok (pv S K t r sg)
        ∧ calculate_option_delta cd pd t K k S r sg = Except.ok (pd S K t r sg))
    ∧ (k ≠ "call" → k ≠ "put" →
        calculate_theoretical_option_value cv pv t K k S r sg
          = Except.error ("Got unexpected value for callput argument, should be call or put but was " ++ k)
        ∧ calculate_option_delta cd pd t K k S r sg
          = Except.error ("Got unexpected value for callput argument, should be call or put but was " ++ k)) := by
  by_cases hc : k = "call"
  · subst hc
    simp [calculate_theoretical_option_value, calculate_option_delta]
  · by_cases hp : k = "put"
    · subst hp
      simp [calculate_theoretical_option_value, calculate_option_delta]
    · simp [calculate_theoretical_option_value, calculate_option_delta, hc, hp]

/-- Claim C9, witness: the kind string frob is neither call nor put and
yields the error on the value calculator. -/
theorem C9_invalid_option_kind_witness :
    ("frob" ≠ "call") ∧ ("frob" ≠ "put")
    ∧ calculate_theoretical_option_value
        (fun _ _ _ _ _ => (0:ℚ)) (fun _ _ _ _ _ => (0:ℚ)) 1 50 ("frob") 60 0 3
      = Except.error ("Got unexpected value for callput argument, should be call or put but was frob") :=
  ⟨by decide, by decide,
   ((C9_invalid_option_kind (fun _ _ _ _ _ => (0:ℚ)) (fun _ _ _ _ _ => (0:ℚ))
       (fun _ _ _ _ _ => (0:ℚ)) (fun _ _ _ _ _ => (0:ℚ)) 1 50 60 0 3
       ("frob")).2.2.2.2 (by decide) (by decide)).1⟩

/-- Claim C10: the volumes folded back by the cancel loop are the
volume of the last-enumerated order of each side (plain per-order
assignment), not a sum; with two asks of volumes 3 and 4 the collected
ask volume is 4, not 7. -/
theorem C10_last_order_volume (orders : List Order) :
    collect_old_volumes orders
      = ((((orders.filter fun o => decide (o.side = Side.bid)).getLast?).map Order.volume).getD 0,
         (((orders.filter fun o => decide (o.side = Side.ask)).getLast?).map Order.volume).getD 0)
    ∧ collect_old_volumes
        [{ side := Side.ask, price := 1, volume := 3 },
         { side := Side.ask, price := 2, volume := 4 }] = (0, 4) :=
  ⟨collect_aux orders 0 0, by rfl⟩

end MarketMaking
